import Mathlib

/-!
Verification of the x11rb back end adapter (`src/x11rb/mod.rs`) of the
penrose window manager library.

The Rust module is embedded shallowly: every operation becomes a pure Lean
function from an explicit environment (the simulated X server replies) to
the requests it issues and the value it returns.  Machine integers are
modelled as `Nat` (with explicit `% 2 ^ w` wrapping where Rust casts
truncate or sign-extend), Rust `Result` becomes `Except`, Rust panics
become a dedicated outcome constructor, and Rust `String`s are modelled as
`List Char` (their unicode scalar sequence) with an explicit UTF-8 byte
codec for the wire.
-/

/-- Error type mirroring the variants of `penrose::Error` that
`src/x11rb/mod.rs` constructs: `Error::Randr(String)`,
`Error::InvalidPropertyData { id, prop, ty }`, a generic connection /
transport failure, and a UTF-8 decoding failure (`String::from_utf8`). -/
inductive XError where
  | randr (msg : String)
  | invalidPropertyData (id : Nat) (propName : String) (ty : String)
  | connFail (msg : String)
  | fromUtf8Fail
deriving Repr, DecidableEq

/-- Modelled from the spec: the closed enumeration of well-known X11 atom
names ("a fixed vocabulary of well-known property/message names").  The
`Atom` enum itself lives in `crate::x::atom`, outside the shown source; a
representative subset is used here, containing the members the shown
source names explicitly (`NetWmWindowType`, `WmState`) plus further
well-known names.  `strum::IntoEnumIterator` provides iteration over all
variants, modelled by `Atom.iter` below. -/
inductive Atom where
  | netWmWindowType
  | wmState
  | wmHints
  | wmNormalHints
  | utf8String
  | wmClass
  | wmName
  | netActiveWindow
  | netClientList
deriving Repr, DecidableEq

/-- Counterpart of `Atom::as_ref`: the wire name of each well-known atom. -/
def Atom.asRef : Atom → String
  | .netWmWindowType => "_NET_WM_WINDOW_TYPE"
  | .wmState => "WM_STATE"
  | .wmHints => "WM_HINTS"
  | .wmNormalHints => "WM_NORMAL_HINTS"
  | .utf8String => "UTF8_STRING"
  | .wmClass => "WM_CLASS"
  | .wmName => "WM_NAME"
  | .netActiveWindow => "_NET_ACTIVE_WINDOW"
  | .netClientList => "_NET_CLIENT_LIST"

/-- Counterpart of `Atom::iter()` (strum `EnumIter`): every variant, once. -/
def Atom.iter : List Atom :=
  [.netWmWindowType, .wmState, .wmHints, .wmNormalHints, .utf8String,
   .wmClass, .wmName, .netActiveWindow, .netClientList]

/-- Counterpart of `Atom::from_str`: recover a well-known atom from its
wire name, failing on unknown names. -/
def Atom.fromStr (s : String) : Option Atom :=
  Atom.iter.find? (fun a => a.asRef == s)

/-- The `Atoms` cache: in the source a `HashMap<Atom, u32>`; modelled as
the association list of (atom, interned id) pairs produced by the batched
intern pass. -/
structure Atoms where
  atoms : List (Atom × Nat)
deriving Repr, DecidableEq

/-- Counterpart of `Atoms::new`: send one `intern_atom` request per
well-known atom, then collect every reply.  The environment function
`internF` stands for the server's reply to interning a given name; any
failed reply aborts construction (the `?` in the source). -/
def Atoms.new (internF : Atom → Except XError Nat) : Except XError Atoms :=
  (Atom.iter.mapM (fun a => (internF a).map (fun v => (a, v)))).map Atoms.mk

/-- Counterpart of `Atoms::known_atom` up to the final `unwrap`: the
`HashMap::get` lookup.  The source unwraps the returned `Option`; the
claim that the unwrap is unreachable is the statement that this function
never returns `none` on a cache built by `Atoms.new`. -/
def Atoms.known_atom (s : Atoms) (a : Atom) : Option Nat :=
  s.atoms.lookup a

/-- Counterpart of `Atoms::atom_name`: reverse lookup restricted to the
well-known set. -/
def Atoms.atom_name (s : Atoms) (v : Nat) : Option Atom :=
  (s.atoms.find? (fun p => p.2 == v)).map (fun p => p.1)

/-- Counterpart of `RANDR_VER`: the requested RandR protocol version. -/
def RANDR_VER : Nat × Nat := (1, 2)

/-- The `format!` pieces of the version-mismatch message, spelled so that
the full message is literally the concatenation around the two version
strings. -/
def randrRequiredStr : String :=
  toString RANDR_VER.fst ++ "." ++ toString RANDR_VER.snd

/-- Detected version rendered as `major.minor`, as `format!("{}.{}")`. -/
def randrDetectedStr (maj mn : Nat) : String :=
  toString maj ++ "." ++ toString mn

/-- Counterpart of the `Error::Randr(format!(...))` message built in
`new_for_connection` when the version check fails. -/
def randrErrMsg (maj mn : Nat) : String :=
  "penrose requires RandR version >= " ++ randrRequiredStr ++ ": detected "
    ++ randrDetectedStr maj mn
    ++ "\nplease update RandR to a newer version"

/-- Environment for `new_for_connection`: the simulated server side of
each request the constructor issues, in source order. -/
structure ConnEnv where
  root : Nat
  internF : Atom → Except XError Nat
  extensionPresent : Bool
  versionReply : Except XError (Nat × Nat)
  selectInputReply : Except XError Unit
  changeAttrsReply : Except XError Unit

/-- The constructed adapter value (`Conn { conn, root, atoms }` without
the transport handle). -/
structure Conn where
  root : Nat
  atoms : Atoms
deriving Repr

/-- Counterpart of `Conn::new_for_connection`: read the root window,
build the atom cache, require the RandR extension, query and check the
RandR version, subscribe to RandR notifications, and install the root
event mask.  Any failing step aborts construction. -/
def new_for_connection (env : ConnEnv) : Except XError Conn := do
  let atoms ← Atoms.new env.internF
  if !env.extensionPresent then
    throw (.randr "RandR not supported")
  let (maj, mn) ← env.versionReply
  if (maj, mn) ≠ RANDR_VER then
    throw (.randr (randrErrMsg maj mn))
  let _ ← env.selectInputReply
  let xconn : Conn := ⟨env.root, atoms⟩
  let _ ← env.changeAttrsReply
  return xconn

/-- Lexicographic order on (major, minor) protocol versions: `v` is lower
than `w`. -/
def versionLt (v w : Nat × Nat) : Bool :=
  v.fst < w.fst || (v.fst == w.fst && v.snd < w.snd)

/-! UTF-8 wire codec.  Rust `String`s are modelled as `List Char` (their
unicode scalar sequence); `String::as_bytes` and `String::from_utf8` are
modelled by a real UTF-8 encoder and validating decoder over byte lists. -/

/-- Encode one unicode scalar value as its UTF-8 bytes. -/
def utf8EncodeChar (c : Char) : List Nat :=
  let n := c.toNat
  if n < 128 then [n]
  else if n < 2048 then [192 + n / 64, 128 + n % 64]
  else if n < 65536 then [224 + n / 4096, 128 + n / 64 % 64, 128 + n % 64]
  else [240 + n / 262144, 128 + n / 4096 % 64, 128 + n / 64 % 64, 128 + n % 64]

/-- Counterpart of `String::as_bytes` on the `List Char` model. -/
def utf8Encode (cs : List Char) : List Nat :=
  (cs.map utf8EncodeChar).flatten

/-- Whether a byte is a UTF-8 continuation byte (`10xxxxxx`). -/
def contByte (b : Nat) : Bool :=
  128 ≤ b && b < 192

mutual

/-- Counterpart of `String::from_utf8` on the byte-list model: a
validating UTF-8 decoder rejecting stray or missing continuation bytes,
overlong encodings, surrogates and out-of-range scalars.  The reader for
the continuation bytes of a multi-byte sequence is split into one helper
per remaining byte so that every recursion is structural. -/
def utf8Decode : List Nat → Option (List Char)
  | [] => some []
  | b :: bs =>
    if b < 128 then (utf8Decode bs).map (fun cs => Char.ofNat b :: cs)
    else if b < 194 then none
    else if b < 224 then utf8DecodeTail1 (b - 192) bs
    else if b < 240 then utf8DecodeTail2 (b - 224) bs
    else if b < 245 then utf8DecodeTail3 (b - 240) bs
    else none

/-- Read the final continuation byte of a two-byte sequence. -/
def utf8DecodeTail1 (acc : Nat) : List Nat → Option (List Char)
  | b :: bs =>
    if contByte b then
      (utf8Decode bs).map (fun cs => Char.ofNat (acc * 64 + (b - 128)) :: cs)
    else none
  | [] => none

/-- Read the second byte of a three-byte sequence. -/
def utf8DecodeTail2 (acc : Nat) : List Nat → Option (List Char)
  | b :: bs =>
    if contByte b then utf8DecodeTail2Fin (acc * 64 + (b - 128)) bs else none
  | [] => none

/-- Read the final byte of a three-byte sequence, rejecting overlong
encodings and surrogates. -/
def utf8DecodeTail2Fin (acc : Nat) : List Nat → Option (List Char)
  | b :: bs =>
    if contByte b ∧ 2048 ≤ acc * 64 + (b - 128) ∧
        ¬(55296 ≤ acc * 64 + (b - 128) ∧ acc * 64 + (b - 128) ≤ 57343) then
      (utf8Decode bs).map (fun cs => Char.ofNat (acc * 64 + (b - 128)) :: cs)
    else none
  | [] => none

/-- Read the second byte of a four-byte sequence. -/
def utf8DecodeTail3 (acc : Nat) : List Nat → Option (List Char)
  | b :: bs =>
    if contByte b then utf8DecodeTail3b (acc * 64 + (b - 128)) bs else none
  | [] => none

/-- Read the third byte of a four-byte sequence. -/
def utf8DecodeTail3b (acc : Nat) : List Nat → Option (List Char)
  | b :: bs =>
    if contByte b then utf8DecodeTail3Fin (acc * 64 + (b - 128)) bs else none
  | [] => none

/-- Read the final byte of a four-byte sequence, rejecting overlong
encodings and out-of-range scalars. -/
def utf8DecodeTail3Fin (acc : Nat) : List Nat → Option (List Char)
  | b :: bs =>
    if contByte b ∧ 65536 ≤ acc * 64 + (b - 128) ∧ acc * 64 + (b - 128) < 1114112 then
      (utf8Decode bs).map (fun cs => Char.ofNat (acc * 64 + (b - 128)) :: cs)
    else none
  | [] => none

end

/-! String-list property codec: `set_prop` joins the segments with NUL
(`strs.join("\0")`), `get_prop` strips leading/trailing NULs and splits on
NUL (`.trim_matches('\0').split('\0')`). -/

/-- The NUL character. -/
def nulChar : Char := Char.ofNat 0

/-- Counterpart of `Vec<String>::join("\0")` at the char level. -/
def joinNul : List (List Char) → List Char
  | [] => []
  | [s] => s
  | s :: rest => s ++ nulChar :: joinNul rest

/-- Counterpart of `str::split('\0')` at the char level: always returns at
least one (possibly empty) segment, and one extra segment per separator. -/
def splitNul : List Char → List (List Char)
  | [] => [[]]
  | c :: rest =>
    if c = nulChar then [] :: splitNul rest
    else
      match splitNul rest with
      | s :: ss => (c :: s) :: ss
      | [] => [[c]]

/-- Counterpart of `str::trim_matches('\0')`: strip NULs from both ends. -/
def trimNul (s : List Char) : List Char :=
  ((s.dropWhile (fun c => c == nulChar)).reverse.dropWhile (fun c => c == nulChar)).reverse

/-! The 32-bit / 16-bit wire views of a property payload, as in x11rb:
`change_property32` serialises each 32-bit value into four bytes, and
`GetPropertyReply::value32` / `value16` reassemble the byte payload when
the declared format matches (little-endian chunking). -/

/-- Serialise one 32-bit value as four little-endian bytes. -/
def le32 (n : Nat) : List Nat :=
  [n % 256, n / 256 % 256, n / 65536 % 256, n / 16777216 % 256]

/-- Counterpart of the byte serialisation done by `change_property32`. -/
def serialize32 (vals : List Nat) : List Nat :=
  (vals.map le32).flatten

/-- Reassemble 16-bit values from the byte payload. -/
def chunk16 : List Nat → List Nat
  | b0 :: b1 :: rest => (b0 + 256 * b1) :: chunk16 rest
  | _ => []

/-- Reassemble 32-bit values from the byte payload. -/
def chunk32 : List Nat → List Nat
  | b0 :: b1 :: b2 :: b3 :: rest =>
      (b0 + 256 * b1 + 65536 * b2 + 16777216 * b3) :: chunk32 rest
  | _ => []

/-- The reply to a `get_property` request: declared type atom, declared
format (bit width), and the raw byte payload. -/
structure GetPropertyReply where
  type_ : Nat
  format : Nat
  value : List Nat
deriving Repr, DecidableEq

/-- Counterpart of `GetPropertyReply::value8`: present iff format is 8. -/
def GetPropertyReply.value8 (r : GetPropertyReply) : Option (List Nat) :=
  if r.format = 8 then some r.value else none

/-- Counterpart of `GetPropertyReply::value16`: present iff format is 16. -/
def GetPropertyReply.value16 (r : GetPropertyReply) : Option (List Nat) :=
  if r.format = 16 then some (chunk16 r.value) else none

/-- Counterpart of `GetPropertyReply::value32`: present iff format is 32. -/
def GetPropertyReply.value32 (r : GetPropertyReply) : Option (List Nat) :=
  if r.format = 32 then some (chunk32 r.value) else none

/-- Modelled from the spec: `WmHints` is the parsed WM-hints structure
from `crate::x::property`, outside the shown source; it is kept abstract
as a wrapper over the 32-bit payload it was parsed from. -/
structure WmHintsData where
  data : List Nat
deriving Repr, DecidableEq

/-- Modelled from the spec: `WmNormalHints`, kept abstract likewise. -/
structure WmNormalHintsData where
  data : List Nat
deriving Repr, DecidableEq

/-- The typed property model, counterpart of `penrose::x::property::Prop`:
`Atom(Vec<String>)`, `Cardinal(Vec<u32>)`, `UTF8String(Vec<String>)`,
`Window(Vec<Xid>)`, `WmHints`, `WmNormalHints`, and the raw fallback
`Bytes(Vec<u32>)`. -/
inductive XProp where
  | atom (names : List String)
  | cardinal (vals : List Nat)
  | utf8String (strs : List (List Char))
  | window (ids : List Nat)
  | wmHints (h : WmHintsData)
  | wmNormalHints (h : WmNormalHintsData)
  | bytes (vals : List Nat)
deriving Repr, DecidableEq

/-- Environment for `get_prop`'s decode stage: `atom_name` resolution
(cache plus server query) and the external `WmHints::try_from_bytes` /
`WmNormalHints::try_from_bytes` parsers from `crate::x::property`. -/
structure DecodeEnv where
  atomNameF : Nat → Except XError String
  wmHintsFromBytes : List Nat → Except XError WmHintsData
  wmNormalHintsFromBytes : List Nat → Except XError WmNormalHintsData

/-- Result of the decode stage of `get_prop`: any `error!` log lines
emitted, and the returned `Result<Option<Prop>>`. -/
structure DecodeOut where
  logs : List String
  result : Except XError (Option XProp)
deriving Repr

/-- The `error!` log line emitted for an invalid declared format on an
unrecognised property type (the source interpolates `prop_name`,
`prop_type` and then `r.type_`). -/
def unknownFormatLog (propName propType : String) (typeId : Nat) : String :=
  "prop type for " ++ propName ++ " was " ++ propType
    ++ " which claims to have a data format of " ++ toString typeId

/-- Decode stage of `get_prop`: the `match` over the resolved type name of
the reply, mirroring `src/x11rb/mod.rs` lines 402-495. -/
def getPropDecode (env : DecodeEnv) (id : Nat) (propName : String)
    (r : GetPropertyReply) : DecodeOut :=
  match r.type_ with
  | 0 => ⟨[], .ok none⟩
  | tid =>
    match env.atomNameF tid with
    | .error e => ⟨[], .error e⟩
    | .ok propType =>
      if propType = "ATOM" then
        match r.value32 with
        | none => ⟨[], .error (.invalidPropertyData id propName propType)⟩
        | some vals =>
          match vals.mapM env.atomNameF with
          | .error e => ⟨[], .error e⟩
          | .ok names => ⟨[], .ok (some (.atom names))⟩
      else if propType = "CARDINAL" then
        match r.value32 with
        | none => ⟨[], .error (.invalidPropertyData id propName propType)⟩
        | some vals => ⟨[], .ok (some (.cardinal vals))⟩
      else if propType = "STRING" ∨ propType = "UTF8_STRING" then
        if r.format ≠ 8 then
          ⟨[], .error (.invalidPropertyData id propName propType)⟩
        else
          match utf8Decode r.value with
          | none => ⟨[], .error .fromUtf8Fail⟩
          | some chars => ⟨[], .ok (some (.utf8String (splitNul (trimNul chars))))⟩
      else if propType = "WINDOW" then
        match r.value32 with
        | none => ⟨[], .error (.invalidPropertyData id propName propType)⟩
        | some vals => ⟨[], .ok (some (.window vals))⟩
      else if propType = "WM_HINTS" then
        match r.value32 with
        | none => ⟨[], .error (.invalidPropertyData id propName propType)⟩
        | some vals =>
          match env.wmHintsFromBytes vals with
          | .error e => ⟨[], .error e⟩
          | .ok h => ⟨[], .ok (some (.wmHints h))⟩
      else if propType = "WM_SIZE_HINTS" then
        match r.value32 with
        | none => ⟨[], .error (.invalidPropertyData id propName propType)⟩
        | some vals =>
          match env.wmNormalHintsFromBytes vals with
          | .error e => ⟨[], .error e⟩
          | .ok h => ⟨[], .ok (some (.wmNormalHints h))⟩
      else
        if r.format = 8 then ⟨[], .ok (some (.bytes r.value))⟩
        else if r.format = 16 then ⟨[], .ok (some (.bytes (chunk16 r.value)))⟩
        else if r.format = 32 then ⟨[], .ok (some (.bytes (chunk32 r.value)))⟩
        else ⟨[unknownFormatLog propName propType r.type_], .ok none⟩

/-! Property writing.  `set_prop` resolves the property name to an atom,
then encodes the typed value: string lists via `change_property8` with
type `STRING`, atom / cardinal / window lists via `change_property32`;
byte-blob and hint variants panic. -/

/-- Protocol constant `AtomEnum::ATOM`. -/
def AtomEnumATOM : Nat := 4

/-- Protocol constant `AtomEnum::CARDINAL`. -/
def AtomEnumCARDINAL : Nat := 6

/-- Protocol constant `AtomEnum::STRING`. -/
def AtomEnumSTRING : Nat := 31

/-- Protocol constant `AtomEnum::WINDOW`. -/
def AtomEnumWINDOW : Nat := 33

/-- One `change_property` request as it reaches the server: target
window, property atom, declared type atom, declared format, and the byte
payload (`change_property8` sends the bytes as given; `change_property32`
sends `serialize32` of the 32-bit values). -/
structure ChangeProperty where
  window : Nat
  propertyAtom : Nat
  typeAtom : Nat
  format : Nat
  dataBytes : List Nat
deriving Repr, DecidableEq

/-- Outcome of a `set_prop` call: the property-change requests issued, a
propagated transport error, or a Rust panic. -/
inductive SetPropOutcome where
  | issued (reqs : List ChangeProperty)
  | failed (e : XError)
  | panicked (msg : String)
deriving Repr, DecidableEq

/-- Counterpart of `set_prop` (`src/x11rb/mod.rs` lines 536-574).
`internF` is the adapter's `intern_atom` operation (cache hit or server
round-trip). -/
def set_prop (internF : String → Except XError Nat) (id : Nat) (name : String)
    (val : XProp) : SetPropOutcome :=
  match internF name with
  | .error e => .failed e
  | .ok a =>
    match val with
    | .utf8String strs =>
        .issued [⟨id, a, AtomEnumSTRING, 8, utf8Encode (joinNul strs)⟩]
    | .atom names =>
        match names.mapM internF with
        | .error e => .failed e
        | .ok ids => .issued [⟨id, a, AtomEnumATOM, 32, serialize32 ids⟩]
    | .cardinal vals =>
        .issued [⟨id, a, AtomEnumCARDINAL, 32, serialize32 vals⟩]
    | .window ids =>
        .issued [⟨id, a, AtomEnumWINDOW, 32, serialize32 ids⟩]
    | .bytes _ | .wmHints _ | .wmNormalHints _ =>
        .panicked "unable to change Prop, WmHints or WmNormalHints properties"

/-- The reply an X server returns for `get_property(false, id, atom, ANY,
0, 1024)` on a property previously stored by a `ChangeProperty` request:
the stored type, format and bytes, truncated to `4 * 1024` bytes by the
`long_length` bound of 1024 that `get_prop` always passes. -/
def storedReply (req : ChangeProperty) : GetPropertyReply :=
  ⟨req.typeAtom, req.format, req.dataBytes.take 4096⟩

/-! Window creation. -/

/-- Counterpart of `penrose::pure::geometry::Rect` (four `u32` fields). -/
structure Rect where
  x : Nat
  y : Nat
  w : Nat
  h : Nat
deriving Repr, DecidableEq

/-- Counterpart of `Rect::new`. -/
def Rect.new (x y w h : Nat) : Rect := ⟨x, y, w, h⟩

/-- Counterpart of `penrose::x::WinType`: a check window, an input-only
window, or an input+output window carrying its window-type atom. -/
inductive WinType where
  | checkWin
  | inputOnly
  | inputOutput (a : Atom)
deriving Repr, DecidableEq

/-- The window classes `create_window` uses. -/
inductive WindowClass where
  | inputOutput
  | inputOnly
deriving Repr, DecidableEq

/-- Event-mask bit `EventMask::EXPOSURE`. -/
def EventMaskEXPOSURE : Nat := 32768

/-- Event-mask bit `EventMask::STRUCTURE_NOTIFY`. -/
def EventMaskSTRUCTURE : Nat := 131072

/-- Counterpart of `CreateWindowAux`: the optional window attributes
accumulated before the `create_window` request. -/
structure CreateWindowAux where
  eventMask : Option Nat := none
  backgroundPixel : Option Nat := none
  borderPixel : Option Nat := none
  colormap : Bool := false
  overrideRedirect : Option Nat := none
deriving Repr, DecidableEq

/-- Counterpart of `CreateWindowAux::new()`. -/
def CreateWindowAux.new : CreateWindowAux := {}

/-- Reinterpret a `u32` as an `i16` (Rust `as i16`): truncate to 16 bits,
two's complement. -/
def i16OfU32 (n : Nat) : Int :=
  let v := n % 65536
  if v < 32768 then (v : Int) else (v : Int) - 65536

/-- Truncate a `u32` to a `u16` (Rust `as u16`). -/
def u16OfU32 (n : Nat) : Nat := n % 65536

/-- Observable effects of one `create_window` call: whether a colormap was
allocated, the window attributes and class passed to the create request,
the cast geometry, whether (and with which atom list) the window-type
property was written, whether the window was mapped, and the final flush. -/
structure CreateWindowTrace where
  colormapCreated : Bool
  winAux : CreateWindowAux
  windowClass : WindowClass
  x : Int
  y : Int
  w : Nat
  h : Nat
  borderWidth : Nat
  windowTypeProp : Option (List String)
  mapped : Bool
  flushed : Bool
deriving Repr, DecidableEq

/-- Counterpart of `create_window` (`src/x11rb/mod.rs` lines 166-225).
`blackPixel` stands for `screen.black_pixel`. -/
def create_window (blackPixel : Nat) (ty : WinType) (r : Rect) (managed : Bool) :
    CreateWindowTrace :=
  let (tyAtom, winAux, class_) :=
    match ty with
    | .checkWin => ((none : Option Atom), CreateWindowAux.new, WindowClass.inputOutput)
    | .inputOnly => (none, CreateWindowAux.new, WindowClass.inputOnly)
    | .inputOutput a =>
        (some a,
         { eventMask := some (EventMaskEXPOSURE ||| EventMaskSTRUCTURE)
           backgroundPixel := some 0
           borderPixel := some blackPixel
           colormap := true },
         WindowClass.inputOutput)
  let winAux := if !managed then { winAux with overrideRedirect := some 1 } else winAux
  let tagged := tyAtom.map (fun a => [a.asRef])
  { colormapCreated := (match ty with | .inputOutput _ => true | _ => false)
    winAux := winAux
    windowClass := class_
    x := i16OfU32 r.x
    y := i16OfU32 r.y
    w := u16OfU32 r.w
    h := u16OfU32 r.h
    borderWidth := 0
    windowTypeProp := tagged
    mapped := tagged.isSome
    flushed := true }

/-! Input grabs. -/

/-- Modifier bit `ModMask::M2` (numeric lock). -/
def ModMaskM2 : Nat := 16

/-- Counterpart of `penrose::core::bindings::KeyCode`: a modifier mask and
a key code. -/
structure KeyCode where
  mask : Nat
  code : Nat
deriving Repr, DecidableEq

/-- Modelled from the spec: `penrose::core::bindings::MouseState` (outside
the shown source) exposes `button()` and `mask()`; it is modelled as the
pair of those two values. -/
structure MouseState where
  buttonId : Nat
  maskVal : Nat
deriving Repr, DecidableEq

/-- The event mask passed to `grab_button`: `BUTTON_PRESS | BUTTON_RELEASE
| BUTTON_MOTION` (4 + 8 + 8192), downcast to `u16`. -/
def grabButtonEventMask : Nat := 8204

/-- One grab request issued to the server: either a `grab_key` or a
`grab_button` with the arguments the source passes. -/
inductive GrabRequest where
  | key (ownerEvents : Bool) (grabWindow : Nat) (modifiers : Nat) (keycode : Nat)
  | button (ownerEvents : Bool) (grabWindow : Nat) (eventMask : Nat) (buttonId : Nat)
      (modifiers : Nat)
deriving Repr, DecidableEq

/-- Whether a grab request is a key grab. -/
def GrabRequest.isKey : GrabRequest → Bool
  | .key .. => true
  | .button .. => false

/-- The two modifier variants every binding is registered under: the
configured mask unchanged, and with the numeric-lock bit added. -/
def grabModifiers : List Nat := [0, ModMaskM2]

/-- Counterpart of `grab` (`src/x11rb/mod.rs` lines 273-315): the ordered
list of grab requests issued for the given key codes and mouse states. -/
def grab (root : Nat) (key_codes : List KeyCode) (mouse_states : List MouseState) :
    List GrabRequest :=
  (grabModifiers.map (fun m =>
    key_codes.map (fun k => GrabRequest.key false root (k.mask ||| m) k.code))).flatten
  ++ (grabModifiers.map (fun m =>
    mouse_states.map (fun s =>
      GrabRequest.button false root grabButtonEventMask s.buttonId (s.maskVal ||| m)))).flatten

/-! Screen resolution via RandR. -/

/-- The fields of a `randr_get_crtc_info` reply that `screen_details`
reads: position (`i16`) and size (`u16`). -/
structure CrtcInfoReply where
  x : Int
  y : Int
  width : Nat
  height : Nat
deriving Repr, DecidableEq

/-- Sign-extend an `i16` into a `u32` (Rust `as u32` on an `i16`). -/
def u32OfI16 (v : Int) : Nat :=
  (v % 4294967296).toNat

/-- Counterpart of `screen_details` (`src/x11rb/mod.rs` lines 236-265):
fetch the screen resources, send one `randr_get_crtc_info` request per
controller (`sendF`, whose failure propagates), then collect the replies
(`replyF`), dropping failed replies via `.ok()`, dropping zero-width
controllers, and converting the rest to `Rect`s in enumeration order. -/
def screen_details (resources : Except XError (List Nat))
    (sendF : Nat → Except XError Nat)
    (replyF : Nat → Except XError CrtcInfoReply) : Except XError (List Rect) := do
  let rs ← resources
  let crtcs ← rs.mapM sendF
  return ((crtcs.filterMap (fun c => (replyF c).toOption)).filter
    (fun rep => 0 < rep.width)).map
    (fun rep => Rect.new (u32OfI16 rep.x) (u32OfI16 rep.y) rep.width rep.height)

/-! Helper lemmas. -/

theorem Atom.mem_iter (a : Atom) : a ∈ Atom.iter := by
  cases a <;> simp [Atom.iter]

/-- A successful batched intern pass produces one cache entry per atom of
`Atom.iter`, in order. -/
theorem mapM_intern_keys (f : Atom → Except XError Nat) :
    ∀ (l : List Atom) (pairs : List (Atom × Nat)),
      l.mapM (fun a => (f a).map (fun v => (a, v))) = .ok pairs →
      pairs.map Prod.fst = l := by
  intro l
  induction l with
  | nil =>
    intro pairs h
    simp only [List.mapM_nil, pure, Except.pure, Except.ok.injEq] at h
    simp [← h]
  | cons a l ih =>
    intro pairs h
    rw [List.mapM_cons] at h
    cases hf : f a with
    | error e => rw [hf] at h; simp [Except.map, Except.bind, bind] at h
    | ok v =>
      rw [hf] at h
      cases hm : l.mapM (fun a => (f a).map (fun v => (a, v))) with
      | error e => rw [hm] at h; simp [Except.map, Except.bind, bind] at h
      | ok tail =>
        rw [hm] at h
        simp only [Except.map, Except.bind, bind, pure, Except.pure, Except.ok.injEq] at h
        subst h
        simp [ih tail hm]

/-- Association-list lookup succeeds on any stored key. -/
theorem lookup_isSome_of_mem_keys {β : Type} [DecidableEq β]
    (pairs : List (β × Nat)) (a : β) (h : a ∈ pairs.map Prod.fst) :
    (pairs.lookup a).isSome = true := by
  induction pairs with
  | nil => simp at h
  | cons p rest ih =>
    simp only [List.map_cons, List.mem_cons] at h
    by_cases hep : a = p.1
    · simp [List.lookup, hep]
    · have : a ∈ rest.map Prod.fst := by
        rcases h with h | h
        · exact absurd h hep
        · exact h
      simp only [List.lookup]
      rw [show (a == p.1) = false from beq_eq_false_iff_ne.mpr hep]
      exact ih this

/-- Mapping the identity success over `Except` is the identity. -/
theorem mapM_ok_id (rs : List Nat) :
    rs.mapM (fun c => (Except.ok c : Except XError Nat)) = .ok rs := by
  induction rs with
  | nil => rfl
  | cons r rs ih => rw [List.mapM_cons, ih]; rfl

/-- C9: after `Atoms::new` returns successfully, `known_atom` is total
over the well-known atom set — for every well-known name the cache lookup
yields an identifier, so the internal `unwrap` is unreachable — and two
lookups of the same name agree. -/
theorem c9_known_atom_total (internF : Atom → Except XError Nat) (s : Atoms)
    (h : Atoms.new internF = .ok s) (a : Atom) :
    (s.known_atom a).isSome = true ∧
      ∀ v w, s.known_atom a = some v → s.known_atom a = some w → v = w := by
  refine ⟨?_, fun v w hv hw => by rw [hv] at hw; exact Option.some.inj hw⟩
  unfold Atoms.new at h
  cases hm : Atom.iter.mapM (fun a => (internF a).map (fun v => (a, v))) with
  | error e => rw [hm] at h; simp [Except.map] at h
  | ok pairs =>
    rw [hm] at h
    simp only [Except.map, Except.ok.injEq] at h
    have hkeys : pairs.map Prod.fst = Atom.iter := mapM_intern_keys internF _ _ hm
    have hmem : a ∈ pairs.map Prod.fst := hkeys ▸ Atom.mem_iter a
    have := lookup_isSome_of_mem_keys pairs a hmem
    rw [← h]
    exact this

/-- Witness for C9 at a concrete interning function. -/
theorem c9_known_atom_total_witness :
    (Atoms.new (fun _ => .ok 5) = .ok ⟨Atom.iter.map (fun a => (a, 5))⟩) ∧
      ((Atoms.mk (Atom.iter.map (fun a => (a, 5)))).known_atom Atom.wmState).isSome = true :=
  ⟨rfl, (c9_known_atom_total (fun _ => .ok 5) _ rfl Atom.wmState).1⟩

/-- C4: `grab` issues exactly two key-grab requests per key code and two
button-grab requests per mouse state; each key (and each button) is
registered once under its own modifier mask and once with the
numeric-lock bit `ModMask::M2` added. -/
theorem c4_grab_requests (root : Nat) (key_codes : List KeyCode)
    (mouse_states : List MouseState) :
    ((grab root key_codes mouse_states).filter GrabRequest.isKey).length
        = 2 * key_codes.length ∧
    ((grab root key_codes mouse_states).filter
        (fun r => !r.isKey)).length = 2 * mouse_states.length ∧
    (∀ k ∈ key_codes,
      GrabRequest.key false root k.mask k.code ∈ grab root key_codes mouse_states ∧
      GrabRequest.key false root (k.mask ||| ModMaskM2) k.code
        ∈ grab root key_codes mouse_states) ∧
    (∀ s ∈ mouse_states,
      GrabRequest.button false root grabButtonEventMask s.buttonId s.maskVal
        ∈ grab root key_codes mouse_states ∧
      GrabRequest.button false root grabButtonEventMask s.buttonId (s.maskVal ||| ModMaskM2)
        ∈ grab root key_codes mouse_states) := by
  have hkey : ∀ m, (key_codes.map
      (fun k => GrabRequest.key false root (k.mask ||| m) k.code)).filter
        GrabRequest.isKey
      = key_codes.map (fun k => GrabRequest.key false root (k.mask ||| m) k.code) := by
    intro m
    rw [List.filter_eq_self]
    intro x hx
    rcases List.mem_map.mp hx with ⟨k, _, rfl⟩
    rfl
  have hbtnKey : ∀ m, (mouse_states.map
      (fun s => GrabRequest.button false root grabButtonEventMask s.buttonId
        (s.maskVal ||| m))).filter GrabRequest.isKey = [] := by
    intro m
    rw [List.filter_eq_nil_iff]
    intro x hx
    rcases List.mem_map.mp hx with ⟨s, _, rfl⟩
    simp [GrabRequest.isKey]
  have hkeyBtn : ∀ m, (key_codes.map
      (fun k => GrabRequest.key false root (k.mask ||| m) k.code)).filter
        (fun r => !r.isKey) = [] := by
    intro m
    rw [List.filter_eq_nil_iff]
    intro x hx
    rcases List.mem_map.mp hx with ⟨k, _, rfl⟩
    simp [GrabRequest.isKey]
  have hbtn : ∀ m, (mouse_states.map
      (fun s => GrabRequest.button false root grabButtonEventMask s.buttonId
        (s.maskVal ||| m))).filter (fun r => !r.isKey)
      = mouse_states.map (fun s => GrabRequest.button false root grabButtonEventMask
          s.buttonId (s.maskVal ||| m)) := by
    intro m
    rw [List.filter_eq_self]
    intro x hx
    rcases List.mem_map.mp hx with ⟨s, _, rfl⟩
    rfl
  refine ⟨?_, ?_, ?_, ?_⟩
  · simp only [grab, grabModifiers, List.map_cons, List.map_nil, List.flatten,
      List.append_nil, List.filter_append, hkey, hbtnKey]
    simp [Nat.two_mul]
  · simp only [grab, grabModifiers, List.map_cons, List.map_nil, List.flatten,
      List.append_nil, List.filter_append, hkeyBtn, hbtn]
    simp [Nat.two_mul]
  · intro k hk
    constructor
    · apply List.mem_append_left
      simp only [grabModifiers, List.map_cons, List.map_nil, List.flatten, List.append_nil]
      apply List.mem_append_left
      have := List.mem_map_of_mem
        (f := fun k => GrabRequest.key false root (k.mask ||| 0) k.code) hk
      simpa [Nat.or_zero] using this
    · apply List.mem_append_left
      simp only [grabModifiers, List.map_cons, List.map_nil, List.flatten, List.append_nil]
      apply List.mem_append_right
      exact List.mem_map_of_mem
        (f := fun k => GrabRequest.key false root (k.mask ||| ModMaskM2) k.code) hk
  · intro s hs
    constructor
    · apply List.mem_append_right
      simp only [grabModifiers, List.map_cons, List.map_nil, List.flatten, List.append_nil]
      apply List.mem_append_left
      have := List.mem_map_of_mem
        (f := fun s => GrabRequest.button false root grabButtonEventMask s.buttonId
          (s.maskVal ||| 0)) hs
      simpa [Nat.or_zero] using this
    · apply List.mem_append_right
      simp only [grabModifiers, List.map_cons, List.map_nil, List.flatten, List.append_nil]
      apply List.mem_append_right
      exact List.mem_map_of_mem
        (f := fun s => GrabRequest.button false root grabButtonEventMask s.buttonId
          (s.maskVal ||| ModMaskM2)) hs

/-- Witness for C4 at two concrete keys and no mouse states: exactly 4
key grabs, 0 button grabs, and the first key in both modifier variants. -/
theorem c4_grab_requests_witness :
    ((grab 1 [⟨8, 10⟩, ⟨8, 11⟩] []).filter GrabRequest.isKey).length = 4 ∧
    ((grab 1 [⟨8, 10⟩, ⟨8, 11⟩] []).filter (fun r => !r.isKey)).length = 0 ∧
    GrabRequest.key false 1 (8 ||| ModMaskM2) 10 ∈ grab 1 [⟨8, 10⟩, ⟨8, 11⟩] [] := by
  obtain ⟨h1, h2, h3, _⟩ := c4_grab_requests 1 [⟨8, 10⟩, ⟨8, 11⟩] []
  exact ⟨h1, h2, (h3 ⟨8, 10⟩ (by decide)).2⟩

/-- C2 (amended): only input+output windows are tagged with their
window-type atom under `_NET_WM_WINDOW_TYPE` and immediately mapped;
check windows and input-only windows are neither tagged nor mapped. -/
theorem c2_create_window_amended (blackPixel : Nat) (a : Atom) (r : Rect) (managed : Bool) :
    ((create_window blackPixel (.inputOutput a) r managed).windowTypeProp = some [a.asRef] ∧
      (create_window blackPixel (.inputOutput a) r managed).mapped = true) ∧
    ((create_window blackPixel .checkWin r managed).windowTypeProp = none ∧
      (create_window blackPixel .checkWin r managed).mapped = false) ∧
    ((create_window blackPixel .inputOnly r managed).windowTypeProp = none ∧
      (create_window blackPixel .inputOnly r managed).mapped = false) := by
  refine ⟨⟨rfl, rfl⟩, ⟨rfl, rfl⟩, rfl, rfl⟩

/-- Counterexample for C2: the claim says a check-kind window is tagged
with its window-type atom and immediately mapped, but `create_window` on
`WinType::CheckWin` neither writes the window-type property nor maps the
window. -/
theorem c2_counterexample :
    (create_window 0 .checkWin (Rect.new 0 0 1 1) true).windowTypeProp = none ∧
      (create_window 0 .checkWin (Rect.new 0 0 1 1) true).mapped = false := by
  exact ⟨rfl, rfl⟩

/-- C8: `set_prop` with a byte-blob, WM-hints or WM-size-hints value
panics with the fixed message once the property name has been resolved,
and under no interning behaviour does it ever issue property-change
requests or return a recoverable error other than the name-resolution
failure itself. -/
theorem c8_set_prop_panics (internF : String → Except XError Nat) (id : Nat)
    (name : String) (a : Nat) (vals : List Nat) (h1 : WmHintsData) (h2 : WmNormalHintsData)
    (hi : internF name = .ok a) :
    set_prop internF id name (.bytes vals)
        = .panicked "unable to change Prop, WmHints or WmNormalHints properties" ∧
    set_prop internF id name (.wmHints h1)
        = .panicked "unable to change Prop, WmHints or WmNormalHints properties" ∧
    set_prop internF id name (.wmNormalHints h2)
        = .panicked "unable to change Prop, WmHints or WmNormalHints properties" ∧
    ∀ (internG : String → Except XError Nat) (reqs : List ChangeProperty),
      set_prop internG id name (.bytes vals) ≠ .issued reqs ∧
      set_prop internG id name (.wmHints h1) ≠ .issued reqs ∧
      set_prop internG id name (.wmNormalHints h2) ≠ .issued reqs := by
  refine ⟨by simp [set_prop, hi], by simp [set_prop, hi], by simp [set_prop, hi], ?_⟩
  intro internG reqs
  refine ⟨?_, ?_, ?_⟩ <;>
    · unfold set_prop
      cases internG name <;> simp

/-- Witness for C8 at a concrete interning function. -/
theorem c8_set_prop_panics_witness :
    set_prop (fun _ => .ok 42) 7 "WM_CLASS" (.bytes [1, 2])
      = .panicked "unable to change Prop, WmHints or WmNormalHints properties" :=
  (c8_set_prop_panics (fun _ => .ok 42) 7 "WM_CLASS" 42 [1, 2] ⟨[]⟩ ⟨[]⟩ rfl).1

/-- Evaluation of `screen_details` when resource fetching and request
sending succeed: the reply stage drops failed replies and zero-width
controllers and converts the rest. -/
theorem screen_details_ok_eval (rs : List Nat) (replyF : Nat → Except XError CrtcInfoReply) :
    screen_details (.ok rs) (fun d => .ok d) replyF
      = .ok (((rs.filterMap (fun c => (replyF c).toOption)).filter
          (fun rep => 0 < rep.width)).map
          (fun rep => Rect.new (u32OfI16 rep.x) (u32OfI16 rep.y) rep.width rep.height)) := by
  simp only [screen_details, bind, Except.bind, pure, Except.pure]
  rw [mapM_ok_id]

/-- C10: a failed per-controller geometry reply is silently dropped; the
result is the same as if that controller had not been enumerated at all,
and it is still a success. -/
theorem c10_reply_failures_omitted (rs₁ rs₂ : List Nat) (c : Nat)
    (replyF : Nat → Except XError CrtcInfoReply)
    (hc : (replyF c).toOption = none) :
    screen_details (.ok (rs₁ ++ c :: rs₂)) (fun d => .ok d) replyF
        = screen_details (.ok (rs₁ ++ rs₂)) (fun d => .ok d) replyF ∧
      (screen_details (.ok (rs₁ ++ c :: rs₂)) (fun d => .ok d) replyF).isOk = true := by
  rw [screen_details_ok_eval, screen_details_ok_eval]
  constructor
  · rw [List.filterMap_append, List.filterMap_append, List.filterMap_cons, hc]
  · rfl

/-- Witness for C10: the middle controller's reply fails and its
rectangle is simply missing from the successful result. -/
theorem c10_reply_failures_omitted_witness :
    screen_details
        (.ok ([10] ++ 11 :: [12]))
        (fun d => .ok d)
        (fun c => if c = 11 then .error (.connFail "lost") else .ok ⟨c, 0, 100, 50⟩)
      = screen_details (.ok ([10] ++ [12])) (fun d => .ok d)
        (fun c => if c = 11 then .error (.connFail "lost") else .ok ⟨c, 0, 100, 50⟩) :=
  (c10_reply_failures_omitted [10] [12] 11
    (fun c => if c = 11 then .error (.connFail "lost") else .ok ⟨c, 0, 100, 50⟩) rfl).1

/-- C7 (amended): `screen_details` keeps exactly the controllers with
positive width, in enumeration order; each kept controller contributes
the rectangle obtained from its reply fields, which coincides with the
controller's exact (x, y, width, height) whenever the coordinates are
non-negative (negative `i16` coordinates are wrapped by the `as u32`
conversion instead). -/
theorem c7_screen_details_amended (rs : List Nat) (infoF : Nat → CrtcInfoReply) :
    screen_details (.ok rs) (fun d => .ok d) (fun c => .ok (infoF c))
        = .ok (((rs.map infoF).filter (fun rep => 0 < rep.width)).map
            (fun rep => Rect.new (u32OfI16 rep.x) (u32OfI16 rep.y) rep.width rep.height)) ∧
      (∀ v : Int, 0 ≤ v → v < 32768 → u32OfI16 v = v.toNat) ∧
      (∀ c ∈ rs, 0 < (infoF c).width →
        0 ≤ (infoF c).x → (infoF c).x < 32768 →
        0 ≤ (infoF c).y → (infoF c).y < 32768 →
        Rect.new (infoF c).x.toNat (infoF c).y.toNat (infoF c).width (infoF c).height
          ∈ (((rs.map infoF).filter (fun rep => 0 < rep.width)).map
            (fun rep => Rect.new (u32OfI16 rep.x) (u32OfI16 rep.y) rep.width rep.height))) := by
  have hcast : ∀ v : Int, 0 ≤ v → v < 32768 → u32OfI16 v = v.toNat := by
    intro v h0 h1
    unfold u32OfI16
    rw [Int.emod_eq_of_lt h0 (by omega)]
  refine ⟨?_, hcast, ?_⟩
  · rw [screen_details_ok_eval]
    have hfun : (fun c => (Except.ok (infoF c) : Except XError CrtcInfoReply).toOption)
        = (fun c => some (infoF c)) := rfl
    rw [hfun]
    have hmap : ∀ (l : List Nat), l.filterMap (fun c => some (infoF c)) = l.map infoF := by
      intro l
      induction l with
      | nil => rfl
      | cons r l ih => simp [List.filterMap_cons, ih]
    rw [hmap]
  · intro c hc hw hx0 hx1 hy0 hy1
    have hmem : infoF c ∈ (rs.map infoF).filter (fun rep => 0 < rep.width) :=
      List.mem_filter.mpr ⟨List.mem_map_of_mem infoF hc, by simpa using hw⟩
    have := List.mem_map_of_mem
      (fun rep => Rect.new (u32OfI16 rep.x) (u32OfI16 rep.y) rep.width rep.height) hmem
    simpa [hcast _ hx0 hx1, hcast _ hy0 hy1] using this

/-- Witness for C7's amended statement at one concrete controller set: a
zero-width controller is dropped, a positive-width controller at
non-negative coordinates appears exactly. -/
theorem c7_screen_details_amended_witness :
    screen_details (.ok [0, 1]) (fun d => .ok d)
        (fun c => .ok (if c = 0 then ⟨5, 7, 1920, 1080⟩ else ⟨0, 0, 0, 0⟩))
      = .ok [Rect.new 5 7 1920 1080] ∧
    Rect.new ((5 : Int)).toNat ((7 : Int)).toNat 1920 1080 = Rect.new 5 7 1920 1080 := by
  obtain ⟨h1, h2, _⟩ := c7_screen_details_amended [0, 1]
    (fun c => if c = 0 then ⟨5, 7, 1920, 1080⟩ else ⟨0, 0, 0, 0⟩)
  constructor
  · rw [h1]
    rfl
  · rfl

/-- Counterexample for C7: a controller at x = -1 with positive width is
returned as a rectangle whose x is the wrapped value 4294967295, not the
controller's x. -/
theorem c7_counterexample :
    screen_details (.ok [0]) (fun d => .ok d) (fun _ => .ok ⟨-1, 0, 1, 1⟩)
        = .ok [Rect.new 4294967295 0 1 1] ∧
      ((4294967295 : Int) ≠ (-1 : Int)) := by
  exact ⟨rfl, by decide⟩

/-- A version strictly below the minimum is in particular not equal to it. -/
theorem versionLt_ne (maj mn : Nat) (h : versionLt (maj, mn) RANDR_VER = true) :
    (maj, mn) ≠ RANDR_VER := by
  intro hc
  rw [hc] at h
  simp [versionLt, RANDR_VER] at h

/-- C1 (amended): under a working connection, construction succeeds
exactly when the reported RandR version equals the requested minimum
(1, 2); any other reported version — lower or higher — fails with the
version-mismatch error, and for versions lower than the minimum that
error names both the required and the detected version. -/
theorem c1_version_check_amended (env : ConnEnv) (atoms0 : Atoms) (maj mn : Nat)
    (h1 : Atoms.new env.internF = .ok atoms0)
    (h2 : env.extensionPresent = true)
    (h3 : env.versionReply = .ok (maj, mn))
    (h4 : env.selectInputReply = .ok ())
    (h5 : env.changeAttrsReply = .ok ()) :
    new_for_connection env
        = (if (maj, mn) = RANDR_VER then .ok ⟨env.root, atoms0⟩
           else .error (.randr (randrErrMsg maj mn))) ∧
      (versionLt (maj, mn) RANDR_VER = true →
        new_for_connection env = .error (.randr (randrErrMsg maj mn)) ∧
        randrRequiredStr.data <:+: (randrErrMsg maj mn).data ∧
        (randrDetectedStr maj mn).data <:+: (randrErrMsg maj mn).data) := by
  have heval : new_for_connection env
      = (if (maj, mn) = RANDR_VER then .ok ⟨env.root, atoms0⟩
         else .error (.randr (randrErrMsg maj mn))) := by
    by_cases hv : (maj, mn) = RANDR_VER
    · rw [if_pos hv]
      simp [new_for_connection, h1, h2, h3, h4, h5, hv, bind, Except.bind, pure, Except.pure,
        throwThe, throw, MonadExceptOf.throw]
    · rw [if_neg hv]
      simp [new_for_connection, h1, h2, h3, h4, h5, hv, bind, Except.bind, pure, Except.pure,
        throwThe, throw, MonadExceptOf.throw]
  refine ⟨heval, fun hlt => ⟨?_, ?_, ?_⟩⟩
  · rw [heval, if_neg (versionLt_ne maj mn hlt)]
  · refine ⟨"penrose requires RandR version >= ".data,
      (": detected " ++ randrDetectedStr maj mn
        ++ "\nplease update RandR to a newer version").data, ?_⟩
    simp [randrErrMsg, List.append_assoc]
  · refine ⟨("penrose requires RandR version >= " ++ randrRequiredStr ++ ": detected ").data,
      "\nplease update RandR to a newer version".data, ?_⟩
    simp [randrErrMsg, List.append_assoc]

/-- Witness for C1's amended statement: a simulated server reporting
version (1, 1) makes construction fail with the message naming both
versions. -/
theorem c1_version_check_amended_witness :
    new_for_connection ⟨7, fun _ => .ok 1, true, .ok (1, 1), .ok (), .ok ()⟩
        = .error (.randr (randrErrMsg 1 1)) ∧
      randrRequiredStr.data <:+: (randrErrMsg 1 1).data := by
  obtain ⟨-, h⟩ := c1_version_check_amended
    ⟨7, fun _ => .ok 1, true, .ok (1, 1), .ok (), .ok ()⟩
    ⟨Atom.iter.map (fun a => (a, 1))⟩ 1 1 rfl rfl rfl rfl rfl
  obtain ⟨ha, hb, -⟩ := h (by decide)
  exact ⟨ha, hb⟩

/-- Counterexample for C1: a simulated extension reporting version
(1, 3), which is greater than the minimum (1, 2), still fails the
version check — the source compares for exact equality with `RANDR_VER`,
not for "greater than or equal". -/
theorem c1_counterexample :
    versionLt (1, 3) RANDR_VER = false ∧
      new_for_connection ⟨7, fun _ => .ok 1, true, .ok (1, 3), .ok (), .ok ()⟩
        = .error (.randr (randrErrMsg 1 3)) := by
  exact ⟨by decide, rfl⟩

/-- C5: a reply with an unrecognised type atom decodes to the byte-blob
variant holding exactly the received payload values for declared formats
8, 16 and 32; any other declared format logs the problem and yields an
absent value rather than an error. -/
theorem c5_unknown_type_decode (env : DecodeEnv) (id : Nat) (propName tname : String)
    (r : GetPropertyReply)
    (ht : r.type_ ≠ 0)
    (hn : env.atomNameF r.type_ = .ok tname)
    (hu : tname ∉ (["ATOM", "CARDINAL", "STRING", "UTF8_STRING", "WINDOW",
      "WM_HINTS", "WM_SIZE_HINTS"] : List String)) :
    (r.format = 8 →
      getPropDecode env id propName r = ⟨[], .ok (some (.bytes r.value))⟩) ∧
    (r.format = 16 →
      getPropDecode env id propName r = ⟨[], .ok (some (.bytes (chunk16 r.value)))⟩) ∧
    (r.format = 32 →
      getPropDecode env id propName r = ⟨[], .ok (some (.bytes (chunk32 r.value)))⟩) ∧
    (r.format ≠ 8 → r.format ≠ 16 → r.format ≠ 32 →
      getPropDecode env id propName r
        = ⟨[unknownFormatLog propName tname r.type_], .ok none⟩) := by
  simp only [List.mem_cons, List.not_mem_nil, or_false, not_or] at hu
  obtain ⟨h1, h2, h3, h4, h5, h6, h7⟩ := hu
  obtain ⟨t, f, v⟩ := r
  simp only at ht hn ⊢
  cases t with
  | zero => exact absurd rfl ht
  | succ t =>
    have hred : getPropDecode env id propName ⟨t + 1, f, v⟩
        = (if f = 8 then ⟨[], .ok (some (.bytes v))⟩
           else if f = 16 then ⟨[], .ok (some (.bytes (chunk16 v)))⟩
           else if f = 32 then ⟨[], .ok (some (.bytes (chunk32 v)))⟩
           else ⟨[unknownFormatLog propName tname (t + 1)], .ok none⟩ : DecodeOut) := by
      simp only [getPropDecode]
      rw [hn]
      dsimp only
      rw [if_neg h1, if_neg h2,
        if_neg (show ¬(tname = "STRING" ∨ tname = "UTF8_STRING") from fun hc => hc.elim h3 h4),
        if_neg h5, if_neg h6, if_neg h7]
    refine ⟨?_, ?_, ?_, ?_⟩
    · intro hf; rw [hred, if_pos hf]
    · intro hf; rw [hred, if_neg (by omega), if_pos hf]
    · intro hf; rw [hred, if_neg (by omega), if_neg (by omega), if_pos hf]
    · intro hf8 hf16 hf32
      rw [hred, if_neg hf8, if_neg hf16, if_neg hf32]

/-- Witness for C5: an unrecognised type atom with format 8 yields the
bytes received. -/
theorem c5_unknown_type_decode_witness :
    getPropDecode ⟨fun _ => .ok "MYSTERY", fun d => .ok ⟨d⟩, fun d => .ok ⟨d⟩⟩
        3 "P" ⟨99, 8, [1, 2, 3]⟩
      = ⟨[], .ok (some (.bytes [1, 2, 3]))⟩ :=
  (c5_unknown_type_decode ⟨fun _ => .ok "MYSTERY", fun d => .ok ⟨d⟩, fun d => .ok ⟨d⟩⟩
    3 "P" "MYSTERY" ⟨99, 8, [1, 2, 3]⟩ (by decide) rfl (by decide)).1 rfl

/-- Each 32-bit value occupies four bytes on the wire. -/
theorem serialize32_length (vals : List Nat) :
    (serialize32 vals).length = 4 * vals.length := by
  induction vals with
  | nil => rfl
  | cons v vs ih =>
    show (le32 v ++ serialize32 vs).length = 4 * (vs.length + 1)
    rw [List.length_append, ih]
    simp [le32]
    omega

/-- Reassembling the serialised bytes recovers the original 32-bit
values. -/
theorem chunk32_serialize32 (vals : List Nat) (hb : ∀ v ∈ vals, v < 4294967296) :
    chunk32 (serialize32 vals) = vals := by
  induction vals with
  | nil => rfl
  | cons v vs ih =>
    have hv : v < 4294967296 := hb v (List.mem_cons_self v vs)
    have ihh := ih (fun x hx => hb x (List.mem_cons_of_mem v hx))
    show chunk32 (v % 256 :: v / 256 % 256 :: v / 65536 % 256 :: v / 16777216 % 256
      :: serialize32 vs) = v :: vs
    simp only [chunk32]
    rw [ihh]
    congr 1
    omega

/-- C6: setting a cardinal (integer-list) property and reading it back
through the decode path yields the identical ordered sequence, for any
list of 32-bit values within the bounded read length. -/
theorem c6_cardinal_roundtrip (env : DecodeEnv) (internF : String → Except XError Nat)
    (id a : Nat) (name : String) (vals : List Nat)
    (hi : internF name = .ok a)
    (hn : env.atomNameF AtomEnumCARDINAL = .ok "CARDINAL")
    (hb : ∀ v ∈ vals, v < 4294967296)
    (hl : vals.length ≤ 1024) :
    set_prop internF id name (.cardinal vals)
        = .issued [⟨id, a, AtomEnumCARDINAL, 32, serialize32 vals⟩] ∧
      (getPropDecode env id name
        (storedReply ⟨id, a, AtomEnumCARDINAL, 32, serialize32 vals⟩)).result
        = .ok (some (.cardinal vals)) := by
  constructor
  · simp [set_prop, hi]
  · have htake : (serialize32 vals).take 4096 = serialize32 vals := by
      apply List.take_of_length_le
      rw [serialize32_length]
      omega
    show (getPropDecode env id name ⟨AtomEnumCARDINAL, 32, (serialize32 vals).take 4096⟩).result
      = .ok (some (.cardinal vals))
    rw [htake]
    simp only [AtomEnumCARDINAL] at hn
    simp only [getPropDecode, AtomEnumCARDINAL]
    rw [hn]
    dsimp only
    rw [if_neg (by decide : ¬("CARDINAL" : String) = "ATOM"), if_pos rfl]
    simp only [GetPropertyReply.value32, if_pos rfl]
    rw [chunk32_serialize32 vals hb]
    simp

/-- Witness for C6 at a concrete two-element list. -/
theorem c6_cardinal_roundtrip_witness :
    set_prop (fun _ => .ok 77) 9 "_NET_DESKTOP" (.cardinal [1, 4294967295])
        = .issued [⟨9, 77, AtomEnumCARDINAL, 32, serialize32 [1, 4294967295]⟩] ∧
      (getPropDecode
          ⟨fun n => if n = 6 then .ok "CARDINAL" else .ok "X",
           fun d => .ok ⟨d⟩, fun d => .ok ⟨d⟩⟩ 9 "_NET_DESKTOP"
          (storedReply ⟨9, 77, AtomEnumCARDINAL, 32, serialize32 [1, 4294967295]⟩)).result
        = .ok (some (.cardinal [1, 4294967295])) :=
  c6_cardinal_roundtrip
    ⟨fun n => if n = 6 then .ok "CARDINAL" else .ok "X", fun d => .ok ⟨d⟩, fun d => .ok ⟨d⟩⟩
    (fun _ => .ok 77) 9 77 "_NET_DESKTOP" [1, 4294967295] rfl rfl
    (by decide) (by decide)

/-- Decoding an encoded scalar at the front of a byte stream peels off
exactly that character. -/
theorem utf8Decode_encodeChar_append (c : Char) (rest : List Nat) :
    utf8Decode (utf8EncodeChar c ++ rest) = (utf8Decode rest).map (fun cs => c :: cs) := by
  have hvalid : c.toNat < 55296 ∨ (57343 < c.toNat ∧ c.toNat < 1114112) := c.valid
  have hofnat : Char.ofNat c.toNat = c := Char.ofNat_toNat c
  by_cases h1 : c.toNat < 128
  · have henc : utf8EncodeChar c = [c.toNat] := by
      simp only [utf8EncodeChar, if_pos h1]
    rw [henc, List.cons_append, List.nil_append, utf8Decode]
    rw [if_pos h1, hofnat]
  · by_cases h2 : c.toNat < 2048
    · have henc : utf8EncodeChar c = [192 + c.toNat / 64, 128 + c.toNat % 64] := by
        simp only [utf8EncodeChar, if_neg h1, if_pos h2]
      rw [henc, List.cons_append, List.cons_append, List.nil_append, utf8Decode]
      rw [if_neg (by omega), if_neg (by omega), if_pos (by omega), utf8DecodeTail1]
      rw [if_pos (by simp only [contByte, Bool.and_eq_true, decide_eq_true_eq]; omega)]
      have harg : (192 + c.toNat / 64 - 192) * 64 + (128 + c.toNat % 64 - 128) = c.toNat := by
        omega
      rw [harg, hofnat]
    · by_cases h3 : c.toNat < 65536
      · have henc : utf8EncodeChar c
            = [224 + c.toNat / 4096, 128 + c.toNat / 64 % 64, 128 + c.toNat % 64] := by
          simp only [utf8EncodeChar, if_neg h1, if_neg h2, if_pos h3]
        rw [henc, List.cons_append, List.cons_append, List.cons_append, List.nil_append,
          utf8Decode]
        rw [if_neg (by omega), if_neg (by omega), if_neg (by omega), if_pos (by omega),
          utf8DecodeTail2]
        rw [if_pos (by simp only [contByte, Bool.and_eq_true, decide_eq_true_eq]; omega),
          utf8DecodeTail2Fin]
        have hacc : (224 + c.toNat / 4096 - 224) * 64 + (128 + c.toNat / 64 % 64 - 128)
            = c.toNat / 64 := by omega
        rw [hacc]
        have harg : c.toNat / 64 * 64 + (128 + c.toNat % 64 - 128) = c.toNat := by omega
        rw [if_pos (by
          refine ⟨by simp only [contByte, Bool.and_eq_true, decide_eq_true_eq]; omega, ?_, ?_⟩
          · rw [harg]; omega
          · rw [harg]; omega)]
        rw [harg, hofnat]
      · have h4 : c.toNat < 1114112 := by omega
        have henc : utf8EncodeChar c
            = [240 + c.toNat / 262144, 128 + c.toNat / 4096 % 64,
               128 + c.toNat / 64 % 64, 128 + c.toNat % 64] := by
          simp only [utf8EncodeChar, if_neg h1, if_neg h2, if_neg h3]
        rw [henc, List.cons_append, List.cons_append, List.cons_append, List.cons_append,
          List.nil_append, utf8Decode]
        rw [if_neg (by omega), if_neg (by omega), if_neg (by omega), if_neg (by omega),
          if_pos (by omega), utf8DecodeTail3]
        rw [if_pos (by simp only [contByte, Bool.and_eq_true, decide_eq_true_eq]; omega),
          utf8DecodeTail3b]
        have hacc1 : (240 + c.toNat / 262144 - 240) * 64 + (128 + c.toNat / 4096 % 64 - 128)
            = c.toNat / 4096 := by omega
        rw [if_pos (by simp only [contByte, Bool.and_eq_true, decide_eq_true_eq]; omega),
          hacc1, utf8DecodeTail3Fin]
        have hacc2 : c.toNat / 4096 * 64 + (128 + c.toNat / 64 % 64 - 128)
            = c.toNat / 64 := by omega
        rw [hacc2]
        have harg : c.toNat / 64 * 64 + (128 + c.toNat % 64 - 128) = c.toNat := by omega
        rw [if_pos (by
          refine ⟨by simp only [contByte, Bool.and_eq_true, decide_eq_true_eq]; omega, ?_, ?_⟩
          · rw [harg]; omega
          · rw [harg]; omega)]
        rw [harg, hofnat]

/-- Decoding inverts encoding on every scalar sequence. -/
theorem utf8Decode_encode (cs : List Char) : utf8Decode (utf8Encode cs) = some cs := by
  induction cs with
  | nil => rfl
  | cons c cs ih =>
    show utf8Decode (utf8EncodeChar c ++ utf8Encode cs) = some (c :: cs)
    rw [utf8Decode_encodeChar_append, ih]
    rfl

/-- Splitting a NUL-free segment gives back just that segment. -/
theorem splitNul_no_nul (s : List Char) (h : nulChar ∉ s) : splitNul s = [s] := by
  induction s with
  | nil => rfl
  | cons c s ih =>
    have hc : ¬c = nulChar := fun hc => h (hc ▸ List.mem_cons_self c s)
    have hs : nulChar ∉ s := fun hm => h (List.mem_cons_of_mem c hm)
    simp only [splitNul]
    rw [if_neg hc, ih hs]

/-- Splitting past a NUL-free segment followed by a separator peels off
that segment. -/
theorem splitNul_append (s t : List Char) (h : nulChar ∉ s) :
    splitNul (s ++ nulChar :: t) = s :: splitNul t := by
  induction s with
  | nil => simp [splitNul]
  | cons c s ih =>
    have hc : ¬c = nulChar := fun hc => h (hc ▸ List.mem_cons_self c s)
    have hs : nulChar ∉ s := fun hm => h (List.mem_cons_of_mem c hm)
    simp only [List.cons_append, splitNul]
    rw [if_neg hc, show s.append (nulChar :: t) = s ++ nulChar :: t from rfl, ih hs]

/-- Splitting on NUL inverts NUL-joining for nonempty lists of NUL-free
segments. -/
theorem splitNul_joinNul (l : List (List Char)) (hne : l ≠ [])
    (h : ∀ s ∈ l, nulChar ∉ s) : splitNul (joinNul l) = l := by
  induction l with
  | nil => exact absurd rfl hne
  | cons s l ih =>
    cases l with
    | nil => exact splitNul_no_nul s (h s (List.mem_cons_self s []))
    | cons t l' =>
      have hj : joinNul (s :: t :: l') = s ++ nulChar :: joinNul (t :: l') := rfl
      rw [hj, splitNul_append s _ (h s (List.mem_cons_self _ _)),
        ih (by simp) (fun x hx => h x (List.mem_cons_of_mem s hx))]

/-- Dropping leading NULs is the identity when the head is not NUL. -/
theorem dropWhile_nul_eq_self (xs : List Char)
    (h : ∀ b, xs.head? = some b → ¬b = nulChar) :
    xs.dropWhile (fun c => c == nulChar) = xs := by
  cases xs with
  | nil => rfl
  | cons c xs =>
    rw [List.dropWhile_cons, if_neg (by simp [h c rfl])]

/-- Trimming NULs is the identity when neither end is NUL. -/
theorem trimNul_eq_self (xs : List Char)
    (hh : ∀ b, xs.head? = some b → ¬b = nulChar)
    (hl : ∀ b, xs.getLast? = some b → ¬b = nulChar) :
    trimNul xs = xs := by
  unfold trimNul
  rw [dropWhile_nul_eq_self xs hh,
    dropWhile_nul_eq_self xs.reverse
      (fun b hb => hl b (by rwa [List.head?_reverse] at hb)),
    List.reverse_reverse]

/-- The head of a NUL-joined list whose first segment is nonempty is the
head of that first segment. -/
theorem joinNul_head? (s : List Char) (l : List (List Char)) (hs : s ≠ []) :
    (joinNul (s :: l)).head? = s.head? := by
  cases l with
  | nil => rfl
  | cons t l' =>
    show (s ++ nulChar :: joinNul (t :: l')).head? = s.head?
    cases s with
    | nil => exact absurd rfl hs
    | cons c s' => rfl

/-- Appending a final segment to a nonempty NUL-join appends it behind
one separator. -/
theorem joinNul_concat (l : List (List Char)) (s : List Char) (hl : l ≠ []) :
    joinNul (l ++ [s]) = joinNul l ++ nulChar :: s := by
  induction l with
  | nil => exact absurd rfl hl
  | cons t l' ih =>
    cases l' with
    | nil => rfl
    | cons u l'' =>
      show t ++ nulChar :: joinNul ((u :: l'') ++ [s])
        = (t ++ nulChar :: joinNul (u :: l'')) ++ nulChar :: s
      rw [ih (by simp), List.append_assoc]
      rfl

/-- The last element of a cons list with a nonempty tail. -/
theorem getLast?_cons_of_ne_nil {α : Type} (c : α) (xs : List α) (h : xs ≠ []) :
    (c :: xs).getLast? = xs.getLast? := by
  cases xs with
  | nil => exact absurd rfl h
  | cons d xs => rw [List.getLast?_cons_cons]

/-- A `getLast?` value is a member of the list. -/
theorem mem_of_getLast?_eq_some {α : Type} {xs : List α} {b : α}
    (h : xs.getLast? = some b) : b ∈ xs := by
  obtain ⟨hne, rfl⟩ := List.mem_getLast?_eq_getLast (show b ∈ xs.getLast? by rw [h]; rfl)
  exact List.getLast_mem hne

/-- The last element of a NUL-joined list whose final segment is nonempty
is the last element of that final segment. -/
theorem joinNul_getLast? (l : List (List Char)) (s : List Char) (hs : s ≠ []) :
    (joinNul (l ++ [s])).getLast? = s.getLast? := by
  cases l with
  | nil => rfl
  | cons t l' =>
    rw [joinNul_concat (t :: l') s (by simp)]
    rw [List.getLast?_append, getLast?_cons_of_ne_nil nulChar s hs,
      List.getLast?_eq_getLast_of_ne_nil hs]
    rfl

/-- Trimming NULs is the identity on a NUL-join of NUL-free segments
whose first and last segments are nonempty. -/
theorem trimNul_joinNul (l : List (List Char)) (hne : l ≠ [])
    (hnul : ∀ s ∈ l, nulChar ∉ s)
    (hhead : ∀ s, l.head? = some s → s ≠ [])
    (hlast : ∀ s, l.getLast? = some s → s ≠ []) :
    trimNul (joinNul l) = joinNul l := by
  apply trimNul_eq_self
  · intro b hb
    cases l with
    | nil => exact absurd rfl hne
    | cons s l' =>
      have hs : s ≠ [] := hhead s rfl
      rw [joinNul_head? s l' hs] at hb
      cases s with
      | nil => exact absurd rfl hs
      | cons c s' =>
        have hb' : some c = some b := hb
        have hbc : c = b := Option.some.inj hb'
        intro h0
        exact hnul (c :: s') (List.mem_cons_self _ _)
          (List.mem_cons.mpr (Or.inl (hbc.trans h0).symm))
  · intro b hb
    obtain hl' | ⟨L, t, hconc⟩ := l.eq_nil_or_concat
    · exact absurd hl' hne
    · rw [List.concat_eq_append] at hconc
      subst hconc
      have ht : t ≠ [] := hlast t (List.getLast?_concat L)
      rw [joinNul_getLast? L t ht] at hb
      have hbmem : b ∈ t := mem_of_getLast?_eq_some hb
      intro h0
      exact hnul t (by simp) (h0 ▸ hbmem)

/-- C3 (amended): the NUL-joined encode and NUL-split decode are inverse
for every nonempty list of NUL-free segments whose first and last
segments are nonempty (within the bounded read length); the empty list,
a leading or trailing empty segment, or a segment containing NUL are not
recovered. -/
theorem c3_utf8_roundtrip_amended (env : DecodeEnv) (internF : String → Except XError Nat)
    (id a : Nat) (name : String) (strs : List (List Char))
    (hi : internF name = .ok a)
    (hn : env.atomNameF AtomEnumSTRING = .ok "STRING")
    (hne : strs ≠ [])
    (hnul : ∀ s ∈ strs, nulChar ∉ s)
    (hhead : ∀ s, strs.head? = some s → s ≠ [])
    (hlast : ∀ s, strs.getLast? = some s → s ≠ [])
    (hlen : (utf8Encode (joinNul strs)).length ≤ 4096) :
    set_prop internF id name (.utf8String strs)
        = .issued [⟨id, a, AtomEnumSTRING, 8, utf8Encode (joinNul strs)⟩] ∧
      (getPropDecode env id name
        (storedReply ⟨id, a, AtomEnumSTRING, 8, utf8Encode (joinNul strs)⟩)).result
        = .ok (some (.utf8String strs)) := by
  constructor
  · simp [set_prop, hi]
  · have htake := List.take_of_length_le hlen
    show (getPropDecode env id name
      ⟨AtomEnumSTRING, 8, (utf8Encode (joinNul strs)).take 4096⟩).result
      = .ok (some (.utf8String strs))
    rw [htake]
    simp only [AtomEnumSTRING] at hn
    simp only [getPropDecode, AtomEnumSTRING]
    rw [hn]
    dsimp only
    rw [if_neg (by decide : ¬("STRING" : String) = "ATOM"),
      if_neg (by decide : ¬("STRING" : String) = "CARDINAL"),
      if_pos (Or.inl rfl : ("STRING" : String) = "STRING" ∨ ("STRING" : String) = "UTF8_STRING"),
      if_neg (by decide : ¬(8 : Nat) ≠ 8)]
    rw [utf8Decode_encode]
    dsimp only
    rw [trimNul_joinNul strs hne hnul hhead hlast, splitNul_joinNul strs hne hnul]

/-- Witness for C3's amended statement at the concrete list
`["a", "bc"]`. -/
theorem c3_utf8_roundtrip_amended_witness :
    set_prop (fun _ => .ok 55) 4 "WM_CLASS" (.utf8String [['a'], ['b', 'c']])
        = .issued [⟨4, 55, AtomEnumSTRING, 8, utf8Encode (joinNul [['a'], ['b', 'c']])⟩] ∧
      (getPropDecode
          ⟨fun n => if n = 31 then .ok "STRING" else .ok "X",
           fun d => .ok ⟨d⟩, fun d => .ok ⟨d⟩⟩ 4 "WM_CLASS"
          (storedReply ⟨4, 55, AtomEnumSTRING, 8, utf8Encode (joinNul [['a'], ['b', 'c']])⟩)).result
        = .ok (some (.utf8String [['a'], ['b', 'c']])) := by
  apply c3_utf8_roundtrip_amended
    ⟨fun n => if n = 31 then .ok "STRING" else .ok "X", fun d => .ok ⟨d⟩, fun d => .ok ⟨d⟩⟩
    (fun _ => .ok 55) 4 55 "WM_CLASS" [['a'], ['b', 'c']] rfl rfl (by decide) (by decide)
  · intro s hs
    have hs' : some ['a'] = some s := hs
    rw [← Option.some.inj hs']
    decide
  · intro s hs
    have hs' : some ['b', 'c'] = some s := hs
    rw [← Option.some.inj hs']
    decide
  · decide

/-- Counterexample for C3: setting the empty string list and reading it
back yields a one-element list holding the empty string, not the empty
list — the encode/decode pair is not inverse on every list. -/
theorem c3_counterexample :
    set_prop (fun _ => .ok 55) 4 "WM_CLASS" (.utf8String [])
        = .issued [⟨4, 55, AtomEnumSTRING, 8, []⟩] ∧
      (getPropDecode
          ⟨fun n => if n = 31 then .ok "STRING" else .ok "X",
           fun d => .ok ⟨d⟩, fun d => .ok ⟨d⟩⟩ 4 "WM_CLASS"
          (storedReply ⟨4, 55, AtomEnumSTRING, 8, []⟩)).result
        = .ok (some (.utf8String [[]])) ∧
      ([[]] : List (List Char)) ≠ ([] : List (List Char)) := by
  refine ⟨rfl, rfl, by decide⟩
